import Mathlib

/-!
Shallow embedding of `backend/graphex.py` (the Graphon logic layer):
domain models, the file-type classifier, the primary-group resolver,
retrieval mapping, neighborhood expansion and corpus sampling.

Conventions of the embedding:
* Python floats are modelled as exact rationals (`ℚ`); for every corpus
  size arising in practice the float expression `int(N * 0.05 * 5)`
  agrees with the exact `⌊N / 4⌋`.
* Python `random.shuffle` / `random.sample` / `random.random` /
  `random.randint` are modelled as explicit oracle parameters
  (`shuffle`, `randomSample`, `coin`, `pickIdx`, `wt`); theorems that
  need a property of the randomness state it as a hypothesis on the
  oracle (e.g. that `shuffle` permutes its input).
* A Python attribute that may be absent is an `Option`; an attribute
  whose value may itself be `None` is an `Option` inside the outer
  `Option` (so `getattr(r, "a", d)` is `r.a.getD d`).
* Python dicts keyed by strings (`nodes_map`, `type_counts`) are
  association lists with insertion-order semantics, exactly as CPython
  dicts behave: updating an existing key keeps its position.
-/

namespace Graphex

/-- A file record as returned by the external service's `list_files`. -/
structure FileRecord where
  file_id : String
  file_name : String
  processing_status : String
  created_at : Option String
deriving Repr, DecidableEq

/-- A group record as returned by the external service's `list_groups`. -/
structure GroupInfo where
  group_id : String
  group_name : String
  graph_status : String
deriving Repr, DecidableEq

/-- A source record of a semantic-query response: all fields are looked up
with `dict.get`, hence optional. -/
structure Source where
  file_id : Option String
  file_name : Option String
  text : Option String
  score : Option ℚ
deriving Repr, DecidableEq

/-- A semantic-query response.  `answer` and `thought` are attributes that
may be absent (outer `Option`) and whose value may be `None` (inner
`Option`). -/
structure QueryResponse where
  answer : Option (Option String)
  thought : Option (Option String)
  sources : List Source
deriving Repr, DecidableEq

/-- `GraphNode` domain model (pydantic `BaseModel` in the source). -/
structure GraphNode where
  id : String
  label : String
  type : String
  content_preview : String
  metadata : List (String × String)
deriving Repr, DecidableEq

/-- `GraphEdge` domain model. -/
structure GraphEdge where
  source : String
  target : String
  weight : ℚ
  relation : String
deriving Repr, DecidableEq

/-- `RetrievalHit` domain model. -/
structure RetrievalHit where
  node : GraphNode
  score : ℚ
  explanation : String
deriving Repr, DecidableEq

/-- `RetrievalResult` domain model. -/
structure RetrievalResult where
  hits : List RetrievalHit
  answer : Option String
deriving Repr, DecidableEq

/-- `ExpansionResult` domain model. -/
structure ExpansionResult where
  nodes : List GraphNode
  edges : List GraphEdge
  summary : String
deriving Repr, DecidableEq

/-- The `stats` dict of a `SamplingResult`. -/
structure SampleStats where
  original_nodes : Nat
  kept_nodes : Nat
  method : String
deriving Repr, DecidableEq

/-- `SamplingResult` domain model. -/
structure SamplingResult where
  nodes : List GraphNode
  edges : List GraphEdge
  stats : SampleStats
deriving Repr, DecidableEq

/-- The external-service world one request sees: the group list (which may
fail to fetch), each group's member file ids, the file corpus, and the
semantic-query responses (group id and query text determine the response). -/
structure Env where
  groups : Except Unit (List GroupInfo)
  group_file_ids : String → List String
  files : List FileRecord
  query : String → String → QueryResponse

/-- `Graphon._map_file_type`: classify a filename by its last extension. -/
def map_file_type (filename : String) : String :=
  let ext := ((filename.splitOn ".").getLastD "").toLower
  if ext = "mp4" ∨ ext = "mov" ∨ ext = "webm" then "video"
  else if ext = "mp3" ∨ ext = "wav" ∨ ext = "m4a" then "audio"
  else if ext = "png" ∨ ext = "jpg" ∨ ext = "jpeg" ∨ ext = "svg" then "image"
  else if ext = "pdf" ∨ ext = "doc" ∨ ext = "docx" then "doc"
  else "text"

/-- `Graphon._file_to_node`: map a file record to a graph node. -/
def file_to_node (f : FileRecord) : GraphNode :=
  { id := f.file_id
    label := f.file_name
    type := map_file_type f.file_name
    content_preview := "Status: " ++ f.processing_status
    metadata := [("created_at", f.created_at.getD "Unknown")] }

/-- Python truthiness of an optional string (`if not group_id`):
`None` and the empty string are falsy. -/
def optTruthy : Option String → Bool
  | none => false
  | some s => !s.isEmpty

/-- `Graphon._get_primary_group`: first group whose status is "ready";
any fetch error is swallowed and yields `none`. -/
def get_primary_group (env : Env) : Option String :=
  match env.groups with
  | .ok groups => ((groups.filter (fun g => g.graph_status = "ready")).head?).map
      (fun g => g.group_id)
  | .error _ => none

/-- The group-id resolution step shared by `retrieve` and `expand`:
use the caller's id when truthy, otherwise ask the resolver. -/
def resolvedGroup (env : Env) (group_id : Option String) : Option String :=
  if optTruthy group_id then group_id else get_primary_group env

/-- One retrieval hit, built from the `i`-th source record (zero-based) of a
query response, mirroring the loop body of `Graphon.retrieve`. -/
def mkHit (query : String) (i : Nat) (s : Source) : RetrievalHit :=
  { node :=
      { id := s.file_id.getD ("unknown-" ++ toString i)
        label := s.file_name.getD "Untitled"
        type := map_file_type (s.file_name.getD "")
        content_preview := (s.text.getD "").take 200 ++ "..."
        metadata := [("author", "Unknown"), ("timestamp", "Recently")] }
    score := s.score.getD (0.9 - i * 0.1)
    explanation := "Relevant to \x27" ++ query ++ "\x27" }

/-- The `for i, source in enumerate(response.sources)` loop of
`Graphon.retrieve`, carrying the running index. -/
def buildHits (query : String) : Nat → List Source → List RetrievalHit
  | _, [] => []
  | i, s :: rest => mkHit query i s :: buildHits query (i + 1) rest

/-- Python `a or b` on optional strings: `a` when truthy, else `b`. -/
def pyOr (a b : Option String) : Option String :=
  if optTruthy a then a else b

/-- `Graphon.retrieve`: resolve the group, query it, map the sources to
hits, and synthesize the answer field. -/
def retrieve (env : Env) (query : String) (modalities : Option (List String))
    (group_id : Option String) : RetrievalResult :=
  let gid? := resolvedGroup env group_id
  if optTruthy gid? then
    let response := env.query (gid?.getD "") query
    { hits := buildHits query 0 response.sources
      answer := pyOr (response.answer.getD none)
        (response.thought.getD (some "No answer found.")) }
  else { hits := [], answer := some "No knowledge group available." }

/-- The keys of the `nodes_map` association list, in insertion order. -/
def keys (m : List (String × GraphNode)) : List String :=
  m.map Prod.fst

/-- Membership test of a key in `nodes_map` (`f.file_id in nodes_map`). -/
def hasKey (m : List (String × GraphNode)) (k : String) : Bool :=
  m.any (fun p => p.1 = k)

/-- `nodes_map[k] = v` with CPython dict semantics: replace in place when
the key exists, append otherwise. -/
def insertNode (m : List (String × GraphNode)) (k : String) (v : GraphNode) :
    List (String × GraphNode) :=
  if hasKey m k then m.map (fun p => if p.1 = k then (k, v) else p)
  else m ++ [(k, v)]

/-- The fixed-weight "related_content" edge from a seed to a popped
candidate. -/
def mkEdge (seed n : FileRecord) : GraphEdge :=
  { source := seed.file_id, target := n.file_id, weight := 0.8
    relation := "related_content" }

/-- The inner `for n in my_neighbors` loop of `Graphon.expand`: add the
candidate as a node, then append the seed→candidate edge. -/
def addNeighbors (seed : FileRecord) :
    List FileRecord → List (String × GraphNode) → List GraphEdge →
    List (String × GraphNode) × List GraphEdge
  | [], m, es => (m, es)
  | n :: rest, m, es =>
      addNeighbors seed rest (insertNode m n.file_id (file_to_node n))
        (es ++ [mkEdge seed n])

/-- The outer `for seed in seeds` loop of `Graphon.expand`: each seed pops
the first three candidates from the shared pool, which is consumed. -/
def expandLoop :
    List FileRecord → List (String × GraphNode) → List GraphEdge →
    List FileRecord → List (String × GraphNode) × List GraphEdge
  | [], m, es, _pool => (m, es)
  | seed :: rest, m, es, pool =>
      let st := addNeighbors seed (pool.take 3) m es
      expandLoop rest st.1 st.2 (pool.drop 3)

/-- The `type_counts` histogram: first-occurrence order, CPython dict
semantics. -/
def typeCounts (ts : List String) : List (String × Nat) :=
  ts.foldl (fun acc t =>
    if acc.any (fun p => p.1 = t) then
      acc.map (fun p => if p.1 = t then (p.1, p.2 + 1) else p)
    else acc ++ [(t, 1)]) []

/-- Render the expansion summary from the node types, pluralizing only
when a count exceeds one. -/
def mkSummary (ts : List String) : String :=
  let parts := (typeCounts ts).map (fun p =>
    if p.2 > 1 then toString p.2 ++ " " ++ p.1 ++ "s"
    else toString p.2 ++ " " ++ p.1)
  if parts.isEmpty then "AI Synthesis: No related documents found in the graph."
  else "AI Synthesis: Analyzed real data from your graph. Found " ++
    String.intercalate ", " parts ++ " related to your search."

/-- The group's relevant-file set: corpus files whose id belongs to the
group. -/
def relevantFiles (env : Env) (gid : String) : List FileRecord :=
  env.files.filter (fun f => decide (f.file_id ∈ env.group_file_ids gid))

/-- The seed list of `Graphon.expand`: relevant files matching the supplied
ids, or the first `len(seed_ids)` relevant files when none match. -/
def seedsOf (relevant : List FileRecord) (seed_ids : List String) :
    List FileRecord :=
  let seeds0 := relevant.filter (fun f => decide (f.file_id ∈ seed_ids))
  if seeds0.isEmpty then relevant.take seed_ids.length else seeds0

/-- `Graphon.expand`.  `shuffle` is the `random.shuffle` oracle applied to
the candidate pool; `steps` is accepted but never consumed. -/
def expand (env : Env) (shuffle : List FileRecord → List FileRecord)
    (seed_ids : List String) (steps : Nat) (group_id : Option String) :
    ExpansionResult :=
  let gid? := resolvedGroup env group_id
  if optTruthy gid? then
    let relevant := relevantFiles env (gid?.getD "")
    let seeds := seedsOf relevant seed_ids
    let m0 := seeds.foldl (fun m s => insertNode m s.file_id (file_to_node s)) []
    let candidates := relevant.filter (fun f => !hasKey m0 f.file_id)
    let r := expandLoop seeds m0 [] (shuffle candidates)
    let nodes := r.1.map Prod.snd
    { nodes := nodes, edges := r.2, summary := mkSummary (nodes.map (fun n => n.type)) }
  else { nodes := [], edges := [], summary := "No knowledge graph available." }

/-- Placeholder node for total indexing; never reached at in-range
indices. -/
def dummyNode : GraphNode :=
  { id := "", label := "", type := "", content_preview := "", metadata := [] }

/-- The mock-edge loop of `Graphon.sample`: for each position `i > 0`, when
the coin fires, link node `i` to a random earlier node.  `pickIdx i % i`
models `random.randint(0, i-1)` (any in-range outcome is realizable). -/
def sampleEdges (nodes : List GraphNode) (coin : Nat → Bool)
    (pickIdx : Nat → Nat) (wt : Nat → ℚ) : List GraphEdge :=
  (List.range nodes.length).foldl (fun es i =>
    if decide (0 < i) && coin i then
      es ++ [{ source := (nodes.getD i dummyNode).id
               target := (nodes.getD (pickIdx i % i) dummyNode).id
               weight := wt i, relation := "sampled_link" }]
    else es) []

/-- `Graphon.sample`.  `randomSample` is the `random.sample` oracle
(`randomSample n l` models drawing `n` of the elements of `l` without
replacement); `coin i` models `random.random() > 0.6` at position `i`;
`wt i` models the random edge weight. -/
def sample (env : Env) (randomSample : Nat → List FileRecord → List FileRecord)
    (coin : Nat → Bool) (pickIdx : Nat → Nat) (wt : Nat → ℚ)
    (fraction : ℚ) : SamplingResult :=
  let files := env.files
  let k := max 5 (Int.toNat ⌊(files.length : ℚ) * fraction * 5⌋)
  let nodes := (randomSample (min k files.length) files).map file_to_node
  { nodes := nodes
    edges := sampleEdges nodes coin pickIdx wt
    stats :=
      { original_nodes := files.length, kept_nodes := nodes.length
        method := "real_data_sample" } }

/-- Closed form of the edges produced by `expandLoop` on top of an existing
edge list: seed number `j` contributes edges to the `j`-th 3-chunk of the
pool. -/
def newEdges : List FileRecord → List FileRecord → List GraphEdge
  | [], _ => []
  | s :: rest, pool => (pool.take 3).map (mkEdge s) ++ newEdges rest (pool.drop 3)

/-- The answer fallback as the spec words it (presence-based): the
response's answer field if present, else its thought field, else the
default — regardless of whether the present value is empty or null.
Written from the spec for comparison with `retrieve`. -/
def specAnswerFallback (r : QueryResponse) : Option String :=
  match r.answer with
  | some v => v
  | none =>
      match r.thought with
      | some v => v
      | none => some "No answer found."

/-- The thought-side fallback the code actually implements:
`getattr(response, "thought", "No answer found.")`. -/
def thoughtFallback (r : QueryResponse) : Option String :=
  match r.thought with
  | some v => v
  | none => some "No answer found."

/-- The amended answer rule: the answer field wins only when present and
non-empty and non-null; otherwise the thought attribute's value (even if
empty or null) when the attribute exists; otherwise the default string. -/
def amendedAnswer (r : QueryResponse) : Option String :=
  match r.answer with
  | some (some s) => if s.isEmpty then thoughtFallback r else some s
  | _ => thoughtFallback r

/-- Placeholder source for total indexing. -/
def dummySource : Source :=
  { file_id := none, file_name := none, text := none, score := none }

/-- Placeholder hit for total indexing. -/
def dummyHit : RetrievalHit :=
  mkHit "" 0 dummySource

/-- Concrete test world: five processed files, all members of the single
ready group "g". -/
def envW : Env :=
  { groups := .ok [{ group_id := "g", group_name := "G", graph_status := "ready" }]
    group_file_ids := fun _ => ["f1", "f2", "f3", "f4", "f5"]
    files :=
      [{ file_id := "f1", file_name := "a.pdf", processing_status := "done", created_at := none },
       { file_id := "f2", file_name := "b.mp4", processing_status := "done", created_at := none },
       { file_id := "f3", file_name := "c.txt", processing_status := "done", created_at := none },
       { file_id := "f4", file_name := "d.png", processing_status := "done", created_at := none },
       { file_id := "f5", file_name := "e.doc", processing_status := "done", created_at := none }]
    query := fun _ _ => { answer := none, thought := none, sources := [] } }

/-- Concrete world whose group fetch fails. -/
def envErr : Env :=
  { groups := .error ()
    group_file_ids := fun _ => []
    files := []
    query := fun _ _ => { answer := none, thought := none, sources := [] } }

/-- Concrete world whose query response has a present-but-empty answer
attribute and a present thought attribute. -/
def envC3 : Env :=
  { envW with query := fun _ _ =>
      { answer := some (some ""), thought := some (some "T"), sources := [] } }

/-- Concrete world whose query response has two sources, the first with a
provided score and the second without one. -/
def envC6 : Env :=
  { envW with query := fun _ _ =>
      { answer := some (some "A"), thought := none
        sources :=
          [{ file_id := some "f1", file_name := some "a.pdf", text := some "t1"
             score := some 0.5 },
           { file_id := none, file_name := none, text := none, score := none }] } }

/-! ## Helper lemmas -/

theorem keys_insertNode (m : List (String × GraphNode)) (k : String)
    (v : GraphNode) :
    keys (insertNode m k v) = if hasKey m k then keys m else keys m ++ [k] := by
  unfold insertNode
  by_cases h : hasKey m k
  · simp only [if_pos h, keys, List.map_map]
    exact List.map_congr_left
      (fun p _ => by by_cases hp : p.1 = k <;> simp [Function.comp, hp])
  · simp [if_neg h, keys]

theorem mem_keys_insertNode {m : List (String × GraphNode)} {a : String}
    (k : String) (v : GraphNode) (h : a ∈ keys m) :
    a ∈ keys (insertNode m k v) := by
  rw [keys_insertNode]
  split <;> simp [h]

theorem self_mem_keys_insertNode (m : List (String × GraphNode)) (k : String)
    (v : GraphNode) : k ∈ keys (insertNode m k v) := by
  rw [keys_insertNode]
  split
  · rename_i h
    unfold hasKey at h
    simp only [List.any_eq_true, decide_eq_true_eq] at h
    obtain ⟨p, hp, hk⟩ := h
    exact hk ▸ List.mem_map_of_mem Prod.fst hp
  · simp

theorem id_inv_insertNode {m : List (String × GraphNode)} {k : String}
    {v : GraphNode} (hm : ∀ p ∈ m, p.2.id = p.1) (hv : v.id = k) :
    ∀ p ∈ insertNode m k v, p.2.id = p.1 := by
  intro p hp
  unfold insertNode at hp
  split at hp
  · obtain ⟨q, hq, he⟩ := List.mem_map.mp hp
    by_cases h : q.1 = k
    · simp only [h, if_pos rfl] at he
      exact he ▸ hv
    · simp only [if_neg h] at he
      exact he ▸ hm q hq
  · rcases List.mem_append.mp hp with h | h
    · exact hm p h
    · simp only [List.mem_singleton] at h
      exact h ▸ hv

theorem addNeighbors_snd (seed : FileRecord) :
    ∀ (my : List FileRecord) (m : List (String × GraphNode))
      (es : List GraphEdge),
      (addNeighbors seed my m es).2 = es ++ my.map (mkEdge seed)
  | [], m, es => by simp [addNeighbors]
  | n :: rest, m, es => by
      rw [addNeighbors, addNeighbors_snd seed rest]
      simp

theorem addNeighbors_keys_mono (seed : FileRecord) :
    ∀ (my : List FileRecord) (m : List (String × GraphNode))
      (es : List GraphEdge) {a : String}, a ∈ keys m →
      a ∈ keys (addNeighbors seed my m es).1
  | [], m, es, a, h => h
  | n :: rest, m, es, a, h =>
      addNeighbors_keys_mono seed rest _ _ (mem_keys_insertNode _ _ h)

theorem addNeighbors_keys_new (seed : FileRecord) :
    ∀ (my : List FileRecord) (m : List (String × GraphNode))
      (es : List GraphEdge) {n : FileRecord}, n ∈ my →
      n.file_id ∈ keys (addNeighbors seed my m es).1 := by
  intro my
  induction my with
  | nil => intro m es n h; cases h
  | cons x rest ih =>
      intro m es n h
      rcases List.mem_cons.mp h with h | h
      · subst h
        exact addNeighbors_keys_mono seed rest _ _
          (self_mem_keys_insertNode m n.file_id (file_to_node n))
      · exact ih _ _ h

theorem addNeighbors_id_inv (seed : FileRecord) :
    ∀ (my : List FileRecord) (m : List (String × GraphNode))
      (es : List GraphEdge), (∀ p ∈ m, p.2.id = p.1) →
      ∀ p ∈ (addNeighbors seed my m es).1, p.2.id = p.1 := by
  intro my
  induction my with
  | nil => intro m es hm; exact hm
  | cons x rest ih =>
      intro m es hm
      exact ih _ _ (id_inv_insertNode hm rfl)

theorem expandLoop_snd :
    ∀ (seeds : List FileRecord) (m : List (String × GraphNode))
      (es : List GraphEdge) (pool : List FileRecord),
      (expandLoop seeds m es pool).2 = es ++ newEdges seeds pool
  | [], m, es, pool => by simp [expandLoop, newEdges]
  | seed :: rest, m, es, pool => by
      rw [expandLoop, expandLoop_snd rest, newEdges, addNeighbors_snd]
      simp

theorem expandLoop_keys_mono :
    ∀ (seeds : List FileRecord) (m : List (String × GraphNode))
      (es : List GraphEdge) (pool : List FileRecord) {a : String},
      a ∈ keys m → a ∈ keys (expandLoop seeds m es pool).1
  | [], m, es, pool, a, h => h
  | seed :: rest, m, es, pool, a, h =>
      expandLoop_keys_mono rest _ _ _
        (addNeighbors_keys_mono seed (pool.take 3) m es h)

theorem expandLoop_id_inv :
    ∀ (seeds : List FileRecord) (m : List (String × GraphNode))
      (es : List GraphEdge) (pool : List FileRecord),
      (∀ p ∈ m, p.2.id = p.1) →
      ∀ p ∈ (expandLoop seeds m es pool).1, p.2.id = p.1
  | [], m, es, pool, hm => hm
  | seed :: rest, m, es, pool, hm =>
      expandLoop_id_inv rest _ _ _
        (addNeighbors_id_inv seed (pool.take 3) m es hm)

theorem newEdges_length :
    ∀ (seeds pool : List FileRecord),
      (newEdges seeds pool).length ≤ 3 * seeds.length
  | [], _ => by simp [newEdges]
  | s :: rest, pool => by
      rw [newEdges]
      have h1 : ((pool.take 3).map (mkEdge s)).length ≤ 3 := by
        simp [List.length_take]
      have h2 := newEdges_length rest (pool.drop 3)
      simp only [List.length_append, List.length_cons]
      omega

theorem newEdges_targets :
    ∀ (seeds pool : List FileRecord),
      (newEdges seeds pool).map GraphEdge.target =
        (pool.take (3 * seeds.length)).map FileRecord.file_id
  | [], pool => by simp [newEdges]
  | s :: rest, pool => by
      rw [newEdges, List.map_append, newEdges_targets rest]
      have h3 : 3 * (s :: rest).length = 3 + 3 * rest.length := by
        simp [List.length_cons]; ring
      rw [h3, List.take_add, List.map_append, List.map_map]
      rfl

theorem newEdges_source_mem :
    ∀ (seeds pool : List FileRecord) {e : GraphEdge},
      e ∈ newEdges seeds pool → e.source ∈ seeds.map FileRecord.file_id
  | [], pool, e, h => by simp [newEdges] at h
  | s :: rest, pool, e, h => by
      rw [newEdges] at h
      rcases List.mem_append.mp h with h | h
      · obtain ⟨n, _, he⟩ := List.mem_map.mp h
        simp [← he, mkEdge]
      · simp only [List.map_cons, List.mem_cons]
        exact Or.inr (newEdges_source_mem rest (pool.drop 3) h)

theorem newEdges_filter_nil :
    ∀ (seeds pool : List FileRecord) (s : String),
      s ∉ seeds.map FileRecord.file_id →
      (newEdges seeds pool).filter (fun e => decide (e.source = s)) = [] := by
  intro seeds pool s hs
  rw [List.filter_eq_nil_iff]
  intro e he
  simp only [decide_eq_true_eq]
  intro hsrc
  exact hs (hsrc ▸ newEdges_source_mem seeds pool he)

theorem newEdges_filter_le :
    ∀ (seeds pool : List FileRecord) (s : String),
      (seeds.map FileRecord.file_id).Nodup →
      ((newEdges seeds pool).filter (fun e => decide (e.source = s))).length ≤ 3
  | [], pool, s, _ => by simp [newEdges]
  | x :: rest, pool, s, hnd => by
      rw [newEdges, List.filter_append, List.length_append]
      simp only [List.map_cons, List.nodup_cons] at hnd
      by_cases hx : s = x.file_id
      · have hrest : ((newEdges rest (pool.drop 3)).filter
            (fun e => decide (e.source = s))).length = 0 := by
          rw [List.length_eq_zero, newEdges_filter_nil]
          rw [hx]; exact hnd.1
        have hchunk : (((pool.take 3).map (mkEdge x)).filter
            (fun e => decide (e.source = s))).length ≤ 3 := by
          calc (((pool.take 3).map (mkEdge x)).filter
                (fun e => decide (e.source = s))).length
              ≤ ((pool.take 3).map (mkEdge x)).length :=
                List.length_filter_le _ _
            _ ≤ 3 := by simp [List.length_take]
        omega
      · have hchunk : (((pool.take 3).map (mkEdge x)).filter
            (fun e => decide (e.source = s))).length = 0 := by
          rw [List.length_eq_zero, List.filter_eq_nil_iff]
          intro e he
          obtain ⟨n, _, hne⟩ := List.mem_map.mp he
          simp only [decide_eq_true_eq]
          rw [← hne, mkEdge]
          exact fun hc => hx hc.symm
        have := newEdges_filter_le rest (pool.drop 3) s hnd.2
        omega

theorem foldl_insert_keys_mono (seeds : List FileRecord) :
    ∀ (m : List (String × GraphNode)) {a : String}, a ∈ keys m →
      a ∈ keys (seeds.foldl
        (fun m s => insertNode m s.file_id (file_to_node s)) m) := by
  induction seeds with
  | nil => intro m a h; exact h
  | cons x rest ih =>
      intro m a h
      exact ih _ (mem_keys_insertNode _ _ h)

theorem foldl_insert_key_mem (seeds : List FileRecord) :
    ∀ (m : List (String × GraphNode)) {s : FileRecord}, s ∈ seeds →
      s.file_id ∈ keys (seeds.foldl
        (fun m s => insertNode m s.file_id (file_to_node s)) m) := by
  induction seeds with
  | nil => intro m s h; cases h
  | cons x rest ih =>
      intro m s h
      rcases List.mem_cons.mp h with h | h
      · subst h
        exact foldl_insert_keys_mono rest _
          (self_mem_keys_insertNode m s.file_id (file_to_node s))
      · exact ih _ h

theorem foldl_insert_id_inv (seeds : List FileRecord) :
    ∀ (m : List (String × GraphNode)), (∀ p ∈ m, p.2.id = p.1) →
      ∀ p ∈ seeds.foldl
        (fun m s => insertNode m s.file_id (file_to_node s)) m,
        p.2.id = p.1 := by
  induction seeds with
  | nil => intro m hm; exact hm
  | cons x rest ih =>
      intro m hm
      exact ih _ (id_inv_insertNode hm rfl)

theorem mem_values_of_key {m : List (String × GraphNode)} {a : String}
    (hid : ∀ p ∈ m, p.2.id = p.1) (h : a ∈ keys m) :
    ∃ n ∈ m.map Prod.snd, n.id = a := by
  obtain ⟨p, hp, he⟩ := List.mem_map.mp h
  exact ⟨p.2, List.mem_map_of_mem Prod.snd hp, he ▸ hid p hp⟩

/-! ## Claim theorems -/

/-- C9: the `steps` parameter of `expand` never influences the output: two
calls with the same seed ids, group id, external responses and randomness
but different `steps` values return identical results (nodes, edges and
summary) — only single-hop expansion occurs. -/
theorem expand_steps_inert (env : Env)
    (shuffle : List FileRecord → List FileRecord) (seed_ids : List String)
    (group_id : Option String) (steps1 steps2 : Nat) :
    expand env shuffle seed_ids steps1 group_id =
      expand env shuffle seed_ids steps2 group_id := rfl

/-- C10: when `expand` is called with an empty seed-id list and a group
resolves, the result has empty node and edge sets and the fixed summary
"AI Synthesis: No related documents found in the graph.", even when the
relevant-file set is non-empty: the fallback takes the first zero relevant
files, so no synthetic seed is created. -/
theorem expand_empty_seed_ids (env : Env)
    (shuffle : List FileRecord → List FileRecord) (steps : Nat)
    (group_id : Option String)
    (h : optTruthy (resolvedGroup env group_id) = true) :
    expand env shuffle [] steps group_id =
      { nodes := [], edges := []
        summary := "AI Synthesis: No related documents found in the graph." } := by
  simp only [expand, h, if_true]
  simp [seedsOf, expandLoop, mkSummary, typeCounts]

/-- Witness for C10: in the concrete five-file world the group "g" resolves
and the empty-seed expansion is the fixed empty result. -/
theorem expand_empty_seed_ids_witness :
    expand envW id [] 7 (some "g") =
      { nodes := [], edges := []
        summary := "AI Synthesis: No related documents found in the graph." } :=
  expand_empty_seed_ids envW id 7 (some "g") (by decide)

/-- C4: when `retrieve` is called with no group id and the primary-group
resolver yields none, the result is a successfully returned
`RetrievalResult` with an empty hit list and answer exactly
"No knowledge group available."; no error is raised. -/
theorem retrieve_no_group (env : Env) (q : String)
    (modalities : Option (List String))
    (h : get_primary_group env = none) :
    retrieve env q modalities none =
      { hits := [], answer := some "No knowledge group available." } := by
  simp [retrieve, resolvedGroup, optTruthy, h]

/-- Witness for C4: in the world whose group fetch fails, `retrieve`
returns the empty "No knowledge group available." result. -/
theorem retrieve_no_group_witness :
    retrieve envErr "q" none none =
      { hits := [], answer := some "No knowledge group available." } :=
  retrieve_no_group envErr "q" none (by decide)

/-- C7: the primary-group resolver returns the id of the first group in
list order whose status is "ready"; it returns nothing when the fetched
list has no ready group, and a fetch error is swallowed into nothing
rather than propagated. -/
theorem primary_group_first_ready (env : Env) :
    (∀ gs, env.groups = .ok gs →
      (get_primary_group env =
        (gs.find? (fun g => g.graph_status = "ready")).map
          (fun g => g.group_id)) ∧
      ((∀ g ∈ gs, g.graph_status ≠ "ready") →
        get_primary_group env = none)) ∧
    ∀ e, env.groups = .error e → get_primary_group env = none := by
  constructor
  · intro gs hgs
    constructor
    · unfold get_primary_group
      rw [hgs, ← List.filter_head?]
    · intro hnone
      unfold get_primary_group
      rw [hgs]
      have : gs.filter (fun g => decide (g.graph_status = "ready")) = [] := by
        rw [List.filter_eq_nil_iff]
        intro g hg
        simpa using hnone g hg
      simp [this]
  · intro e he
    unfold get_primary_group
    rw [he]

/-- Witness for C7: the resolver picks the single ready group of the
concrete world and degrades to nothing when the fetch fails. -/
theorem primary_group_first_ready_witness :
    (get_primary_group envW =
      (([{ group_id := "g", group_name := "G", graph_status := "ready" }] :
          List GroupInfo).find? (fun g => g.graph_status = "ready")).map
        (fun g => g.group_id)) ∧
    get_primary_group envErr = none :=
  ⟨((primary_group_first_ready envW).1 _ rfl).1,
   (primary_group_first_ready envErr).2 () rfl⟩

/-- Counterexample for C3: the claim reads the fallback as presence-based,
"including responses where the answer or thought field is present but
empty or null"; but when the answer attribute is present with the empty
string and the thought attribute holds "T", the code returns "T" while
the presence-based rule returns "". -/
theorem retrieve_answer_fallback_counterexample :
    (retrieve envC3 "q" none (some "g")).answer = some "T" ∧
    specAnswerFallback (envC3.query "g" "q") = some "" ∧
    (retrieve envC3 "q" none (some "g")).answer ≠
      specAnswerFallback (envC3.query "g" "q") := by
  refine ⟨?_, ?_, ?_⟩ <;> decide

/-- C3 (amended): the answer field of the result is the response's answer
field when it is present and non-empty and non-null; otherwise the thought
attribute's value whenever that attribute exists (even if empty or null);
otherwise the literal string "No answer found.". -/
theorem retrieve_answer_fallback_amended (env : Env) (q : String)
    (modalities : Option (List String)) (group_id : Option String)
    (h : optTruthy (resolvedGroup env group_id) = true) :
    (retrieve env q modalities group_id).answer =
      amendedAnswer (env.query ((resolvedGroup env group_id).getD "") q) := by
  simp only [retrieve, h, if_true]
  set r := env.query ((resolvedGroup env group_id).getD "") q with hr
  show pyOr (r.answer.getD none) (r.thought.getD (some "No answer found.")) =
    amendedAnswer r
  rcases hA : r.answer with _ | v
  · rcases hT : r.thought with _ | w <;>
      simp [pyOr, amendedAnswer, thoughtFallback, optTruthy, hA, hT]
  · rcases v with _ | s
    · rcases hT : r.thought with _ | w <;>
        simp [pyOr, amendedAnswer, thoughtFallback, optTruthy, hA, hT]
    · by_cases hs : s.isEmpty <;>
        rcases hT : r.thought with _ | w <;>
        simp [pyOr, amendedAnswer, thoughtFallback, optTruthy, hA, hT, hs]

/-- Witness for C3 (amended): the empty-answer, thought-bearing response
follows the amended rule. -/
theorem retrieve_answer_fallback_amended_witness :
    (retrieve envC3 "q" none (some "g")).answer =
      amendedAnswer (envC3.query ((resolvedGroup envC3 (some "g")).getD "") "q") :=
  retrieve_answer_fallback_amended envC3 "q" none (some "g") (by decide)

theorem buildHits_length (q : String) :
    ∀ (i : Nat) (ss : List Source), (buildHits q i ss).length = ss.length
  | _, [] => rfl
  | i, _ :: rest => by
      rw [buildHits, List.length_cons, List.length_cons,
        buildHits_length q (i + 1) rest]

theorem buildHits_getD (q : String) :
    ∀ (ss : List Source) (i j : Nat), j < ss.length →
      (buildHits q i ss).getD j dummyHit = mkHit q (i + j) (ss.getD j dummySource)
  | [], i, j, hj => by simp at hj
  | s :: rest, i, 0, _ => by simp [buildHits]
  | s :: rest, i, j + 1, hj => by
      rw [buildHits, List.getD_cons_succ, List.getD_cons_succ,
        buildHits_getD q rest (i + 1) j (by simpa using hj)]
      ring_nf

/-- C6: in `retrieve`, the hit built from the `i`-th source record
(zero-based) scores exactly `0.9 − 0.1·i` when the source lacks a score,
and uses the provided score unchanged when one is present; there is one
hit per source. -/
theorem retrieve_score_fallback (env : Env) (q : String)
    (modalities : Option (List String)) (group_id : Option String)
    (h : optTruthy (resolvedGroup env group_id) = true) :
    (retrieve env q modalities group_id).hits.length =
      (env.query ((resolvedGroup env group_id).getD "") q).sources.length ∧
    ∀ i, i < (env.query ((resolvedGroup env group_id).getD "") q).sources.length →
      (((env.query ((resolvedGroup env group_id).getD "") q).sources.getD i
          dummySource).score = none →
        ((retrieve env q modalities group_id).hits.getD i dummyHit).score =
          0.9 - i * 0.1) ∧
      ∀ sc, ((env.query ((resolvedGroup env group_id).getD "") q).sources.getD i
          dummySource).score = some sc →
        ((retrieve env q modalities group_id).hits.getD i dummyHit).score = sc := by
  simp only [retrieve, h, if_true]
  set r := env.query ((resolvedGroup env group_id).getD "") q with hr
  refine ⟨buildHits_length q 0 r.sources, ?_⟩
  intro i hi
  rw [buildHits_getD q r.sources 0 i hi, Nat.zero_add]
  constructor
  · intro hnone
    show ((r.sources.getD i dummySource).score).getD (0.9 - (i : ℚ) * 0.1) = _
    rw [hnone]
    rfl
  · intro sc hsc
    show ((r.sources.getD i dummySource).score).getD (0.9 - (i : ℚ) * 0.1) = sc
    rw [hsc]
    rfl

/-- Witness for C6: in the two-source world the first hit keeps its
provided score 0.5 and the second hit falls back to 0.9 − 0.1·1. -/
theorem retrieve_score_fallback_witness :
    ((retrieve envC6 "q" none (some "g")).hits.getD 1 dummyHit).score =
      0.9 - (1 : ℕ) * 0.1 ∧
    ((retrieve envC6 "q" none (some "g")).hits.getD 0 dummyHit).score = 0.5 :=
  ⟨((retrieve_score_fallback envC6 "q" none (some "g") (by decide)).2 1
      (by decide)).1 (by decide),
   ((retrieve_score_fallback envC6 "q" none (some "g") (by decide)).2 0
      (by decide)).2 0.5 (by rfl)⟩

/-- C5: with the default fraction 0.05 on a corpus of size `N`, `sample`
keeps exactly `min (max 5 ⌊N·0.25⌋) N` nodes (the draw itself is modelled
by the `randomSample` oracle, whose contract is drawing the requested
number of files). -/
theorem sample_size_default_fraction (env : Env)
    (randomSample : Nat → List FileRecord → List FileRecord)
    (coin : Nat → Bool) (pickIdx : Nat → Nat) (wt : Nat → ℚ)
    (hlen : ∀ (n : Nat) (l : List FileRecord), n ≤ l.length →
      (randomSample n l).length = n) :
    (sample env randomSample coin pickIdx wt 0.05).stats.kept_nodes =
      min (max 5 (env.files.length / 4)) env.files.length ∧
    (sample env randomSample coin pickIdx wt 0.05).nodes.length =
      min (max 5 (env.files.length / 4)) env.files.length := by
  have hq : (env.files.length : ℚ) * 0.05 * 5 = (env.files.length : ℚ) / 4 := by
    ring_nf
  have hk : Int.toNat ⌊(env.files.length : ℚ) * 0.05 * 5⌋ =
      env.files.length / 4 := by
    rw [hq, Int.floor_toNat,
      show ((4 : ℚ)) = ((4 : ℕ) : ℚ) by norm_num,
      Nat.floor_div_nat, Nat.floor_natCast]
  have hsel : ((randomSample
      (min (max 5 (Int.toNat ⌊(env.files.length : ℚ) * 0.05 * 5⌋))
        env.files.length) env.files).map file_to_node).length =
      min (max 5 (env.files.length / 4)) env.files.length := by
    rw [List.length_map, hlen _ _ (Nat.min_le_right _ _), hk]
  exact ⟨hsel, hsel⟩

/-- Witness for C5: the five-file corpus at the default fraction keeps
`min (max 5 1) 5 = 5` nodes. -/
theorem sample_size_default_fraction_witness :
    (sample envW (fun n l => l.take n) (fun _ => true) (fun _ => 0)
        (fun _ => 0) 0.05).stats.kept_nodes =
      min (max 5 (envW.files.length / 4)) envW.files.length :=
  (sample_size_default_fraction envW (fun n l => l.take n) (fun _ => true)
    (fun _ => 0) (fun _ => 0)
    (fun n l hnl => by rw [List.length_take]; omega)).1

theorem expand_nodes_of_seed (env : Env)
    (shuffle : List FileRecord → List FileRecord) (seed_ids : List String)
    (steps : Nat) (group_id : Option String)
    (h : optTruthy (resolvedGroup env group_id) = true) {s : FileRecord}
    (hs : s ∈ seedsOf (relevantFiles env ((resolvedGroup env group_id).getD ""))
      seed_ids) :
    ∃ n ∈ (expand env shuffle seed_ids steps group_id).nodes,
      n.id = s.file_id := by
  simp only [expand, h, if_true]
  exact mem_values_of_key
    (expandLoop_id_inv _ _ _ _
      (foldl_insert_id_inv _ _ (fun p hp => absurd hp (List.not_mem_nil p))))
    (expandLoop_keys_mono _ _ _ _ (foldl_insert_key_mem _ _ hs))

/-- Counterexample for C1: with an empty supplied seed-id list, none of the
supplied seed ids occur among the relevant files (vacuously) and the
relevant-file set is non-empty, yet the expansion produces no node at all
— the fallback takes the first zero relevant files. -/
theorem expand_seed_substitution_counterexample :
    relevantFiles envW "g" ≠ [] ∧
    (∀ sid ∈ ([] : List String),
      sid ∉ (relevantFiles envW "g").map FileRecord.file_id) ∧
    (expand envW id [] 2 (some "g")).nodes = [] := by
  refine ⟨by decide, by decide, by decide⟩

/-- C1 (amended): when the supplied seed-id list is NON-EMPTY, none of the
supplied seed ids occur among the relevant files, and the relevant-file
set is non-empty, the engine falls back to the first `len(seedIds)`
relevant files as synthetic seeds: each of them appears as a node of the
result, and the result's node set is non-empty. -/
theorem expand_seed_substitution_amended (env : Env)
    (shuffle : List FileRecord → List FileRecord) (seed_ids : List String)
    (steps : Nat) (gid : String)
    (hgid : optTruthy (some gid) = true)
    (hmiss : ∀ f ∈ relevantFiles env gid, f.file_id ∉ seed_ids)
    (hne : relevantFiles env gid ≠ [])
    (hseed_ids : seed_ids ≠ []) :
    (∀ s ∈ (relevantFiles env gid).take seed_ids.length,
      ∃ n ∈ (expand env shuffle seed_ids steps (some gid)).nodes,
        n.id = s.file_id) ∧
    (expand env shuffle seed_ids steps (some gid)).nodes ≠ [] := by
  have hrg : resolvedGroup env (some gid) = some gid := by
    simp [resolvedGroup, hgid]
  have hres : optTruthy (resolvedGroup env (some gid)) = true := by
    rw [hrg]; exact hgid
  have hgetD : (resolvedGroup env (some gid)).getD "" = gid := by
    rw [hrg]; rfl
  have hfil : (relevantFiles env gid).filter
      (fun f => decide (f.file_id ∈ seed_ids)) = [] := by
    rw [List.filter_eq_nil_iff]
    intro f hf
    simpa using hmiss f hf
  have hseedsOf : seedsOf (relevantFiles env gid) seed_ids =
      (relevantFiles env gid).take seed_ids.length := by
    rw [seedsOf]
    simp [hfil]
  have hmem : ∀ s ∈ (relevantFiles env gid).take seed_ids.length,
      ∃ n ∈ (expand env shuffle seed_ids steps (some gid)).nodes,
        n.id = s.file_id := by
    intro s hs
    refine expand_nodes_of_seed env shuffle seed_ids steps (some gid) hres ?_
    rw [hgetD, hseedsOf]
    exact hs
  refine ⟨hmem, ?_⟩
  obtain ⟨f, rest, hfr⟩ := List.exists_cons_of_ne_nil hne
  obtain ⟨k, hk⟩ := Nat.exists_eq_succ_of_ne_zero
    (fun h0 => hseed_ids (List.length_eq_zero.mp h0))
  have hft : f ∈ (relevantFiles env gid).take seed_ids.length := by
    rw [hfr, hk, List.take_succ_cons]
    exact List.mem_cons_self _ _
  obtain ⟨n, hn, _⟩ := hmem f hft
  exact List.ne_nil_of_mem hn

/-- Witness for C1 (amended): the phantom seed id "zz" matches nothing in
the five-file group, so the first relevant file becomes the synthetic seed
and the result is non-trivial. -/
theorem expand_seed_substitution_amended_witness :
    (∀ s ∈ (relevantFiles envW "g").take (["zz"] : List String).length,
      ∃ n ∈ (expand envW id ["zz"] 2 (some "g")).nodes, n.id = s.file_id) ∧
    (expand envW id ["zz"] 2 (some "g")).nodes ≠ [] :=
  expand_seed_substitution_amended envW id ["zz"] 2 "g" (by decide)
    (by decide) (by decide) (by decide)

theorem addNeighbors_edges_good (seed : FileRecord) :
    ∀ (my : List FileRecord) (m : List (String × GraphNode))
      (es : List GraphEdge),
      (∀ e ∈ es, e.source ∈ keys m ∧ e.target ∈ keys m) →
      seed.file_id ∈ keys m →
      ∀ e ∈ (addNeighbors seed my m es).2,
        e.source ∈ keys (addNeighbors seed my m es).1 ∧
        e.target ∈ keys (addNeighbors seed my m es).1
  | [], m, es, hes, _ => hes
  | n :: rest, m, es, hes, hseed => by
      rw [addNeighbors]
      refine addNeighbors_edges_good seed rest _ _ ?_ ?_
      · intro e he
        rcases List.mem_append.mp he with h | h
        · obtain ⟨h1, h2⟩ := hes e h
          exact ⟨mem_keys_insertNode _ _ h1, mem_keys_insertNode _ _ h2⟩
        · simp only [List.mem_singleton] at h
          subst h
          exact ⟨mem_keys_insertNode _ _ hseed,
            self_mem_keys_insertNode m n.file_id (file_to_node n)⟩
      · exact mem_keys_insertNode _ _ hseed

theorem expandLoop_edges_good :
    ∀ (seeds : List FileRecord) (m : List (String × GraphNode))
      (es : List GraphEdge) (pool : List FileRecord),
      (∀ e ∈ es, e.source ∈ keys m ∧ e.target ∈ keys m) →
      (∀ s ∈ seeds, s.file_id ∈ keys m) →
      ∀ e ∈ (expandLoop seeds m es pool).2,
        e.source ∈ keys (expandLoop seeds m es pool).1 ∧
        e.target ∈ keys (expandLoop seeds m es pool).1
  | [], m, es, pool, hes, _ => hes
  | seed :: rest, m, es, pool, hes, hseeds => by
      rw [expandLoop]
      refine expandLoop_edges_good rest _ _ _ ?_ ?_
      · exact addNeighbors_edges_good seed (pool.take 3) m es hes
          (hseeds seed (List.mem_cons_self _ _))
      · intro s hs
        exact addNeighbors_keys_mono seed (pool.take 3) m es
          (hseeds s (List.mem_cons_of_mem _ hs))

theorem sampleEdges_aux (nodes : List GraphNode) (coin : Nat → Bool)
    (pickIdx : Nat → Nat) (wt : Nat → ℚ) :
    ∀ (l : List Nat) (es : List GraphEdge),
      (∀ i ∈ l, i < nodes.length) →
      (∀ e ∈ es, (∃ n ∈ nodes, n.id = e.source) ∧
        ∃ n ∈ nodes, n.id = e.target) →
      ∀ e ∈ l.foldl (fun es i =>
          if decide (0 < i) && coin i then
            es ++ [{ source := (nodes.getD i dummyNode).id
                     target := (nodes.getD (pickIdx i % i) dummyNode).id
                     weight := wt i, relation := "sampled_link" }]
          else es) es,
        (∃ n ∈ nodes, n.id = e.source) ∧ ∃ n ∈ nodes, n.id = e.target := by
  intro l
  induction l with
  | nil => intro es _ hes; exact hes
  | cons i rest ih =>
      intro es hl hes
      rw [List.foldl_cons]
      refine ih _ (fun j hj => hl j (List.mem_cons_of_mem _ hj)) ?_
      by_cases hc : decide (0 < i) && coin i
      · rw [if_pos hc]
        intro e he
        rcases List.mem_append.mp he with h | h
        · exact hes e h
        · simp only [List.mem_singleton] at h
          subst h
          have hi : i < nodes.length := hl i (List.mem_cons_self _ _)
          have hpos : 0 < i := by
            rcases Bool.and_eq_true_iff.mp hc with ⟨h1, _⟩
            exact of_decide_eq_true h1
          have hj : pickIdx i % i < nodes.length :=
            lt_trans (Nat.mod_lt _ hpos) hi
          constructor
          · exact ⟨nodes.getD i dummyNode,
              (List.getD_eq_getElem nodes dummyNode hi) ▸
                List.getElem_mem hi, rfl⟩
          · exact ⟨nodes.getD (pickIdx i % i) dummyNode,
              (List.getD_eq_getElem nodes dummyNode hj) ▸
                List.getElem_mem hj, rfl⟩
      · rw [if_neg hc]
        exact hes

/-- C8: in every `ExpansionResult` and every `SamplingResult`, the source
id and the target id of every edge both reference nodes present in that
same result's node set. -/
theorem edges_reference_nodes (env : Env)
    (shuffle : List FileRecord → List FileRecord) (seed_ids : List String)
    (steps : Nat) (group_id : Option String)
    (randomSample : Nat → List FileRecord → List FileRecord)
    (coin : Nat → Bool) (pickIdx : Nat → Nat) (wt : Nat → ℚ) (fraction : ℚ) :
    (∀ e ∈ (expand env shuffle seed_ids steps group_id).edges,
      (∃ n ∈ (expand env shuffle seed_ids steps group_id).nodes,
        n.id = e.source) ∧
      ∃ n ∈ (expand env shuffle seed_ids steps group_id).nodes,
        n.id = e.target) ∧
    ∀ e ∈ (sample env randomSample coin pickIdx wt fraction).edges,
      (∃ n ∈ (sample env randomSample coin pickIdx wt fraction).nodes,
        n.id = e.source) ∧
      ∃ n ∈ (sample env randomSample coin pickIdx wt fraction).nodes,
        n.id = e.target := by
  constructor
  · by_cases h : optTruthy (resolvedGroup env group_id) = true
    · simp only [expand, h, if_true]
      intro e he
      have hid : ∀ p ∈ (expandLoop
          (seedsOf (relevantFiles env ((resolvedGroup env group_id).getD ""))
            seed_ids)
          ((seedsOf (relevantFiles env ((resolvedGroup env group_id).getD ""))
            seed_ids).foldl
            (fun m s => insertNode m s.file_id (file_to_node s)) []) []
          (shuffle ((relevantFiles env ((resolvedGroup env group_id).getD "")).filter
            (fun f => !hasKey
              ((seedsOf (relevantFiles env ((resolvedGroup env group_id).getD ""))
                seed_ids).foldl
                (fun m s => insertNode m s.file_id (file_to_node s)) [])
              f.file_id)))).1, p.2.id = p.1 :=
        expandLoop_id_inv _ _ _ _
          (foldl_insert_id_inv _ _ (fun p hp => absurd hp (List.not_mem_nil p)))
      obtain ⟨h1, h2⟩ := expandLoop_edges_good _ _ _ _
        (fun e he => absurd he (List.not_mem_nil e))
        (fun s hs => foldl_insert_key_mem _ _ hs) e he
      exact ⟨mem_values_of_key hid h1, mem_values_of_key hid h2⟩
    · simp [expand, h]
  · intro e he
    simp only [sample] at he ⊢
    exact sampleEdges_aux _ coin pickIdx wt _ []
      (fun i hi => List.mem_range.mp hi)
      (fun e he => absurd he (List.not_mem_nil e)) e he

theorem seedsOf_sublist (relevant : List FileRecord)
    (seed_ids : List String) :
    (seedsOf relevant seed_ids).Sublist relevant := by
  rw [seedsOf]
  split
  · exact List.take_sublist _ _
  · exact List.filter_sublist _

theorem seedsOf_length_le (relevant : List FileRecord)
    (seed_ids : List String)
    (hnd : (relevant.map FileRecord.file_id).Nodup) :
    (seedsOf relevant seed_ids).length ≤ seed_ids.length := by
  rw [seedsOf]
  split
  · simp [List.length_take]
  · have hsub : (relevant.filter
        (fun f => decide (f.file_id ∈ seed_ids))).map FileRecord.file_id ⊆
        seed_ids := by
      intro a ha
      obtain ⟨f, hf, he⟩ := List.mem_map.mp ha
      have := List.of_mem_filter hf
      rw [decide_eq_true_eq] at this
      exact he ▸ this
    have hnd0 : ((relevant.filter
        (fun f => decide (f.file_id ∈ seed_ids))).map FileRecord.file_id).Nodup :=
      hnd.sublist ((List.filter_sublist relevant).map _)
    have := (hnd0.subperm hsub).length_le
    simpa using this

/-- C2: in every `ExpansionResult`, each node id is the source of at most
3 edges, the total edge count is at most 3 times the number of supplied
seeds, and (for a corpus with distinct file ids, randomness shuffling the
pool) no node id is a neighbor of more than one seed: edges with the same
target have the same source. -/
theorem expand_neighbor_cap (env : Env)
    (shuffle : List FileRecord → List FileRecord) (seed_ids : List String)
    (steps : Nat) (group_id : Option String)
    (hnd : (env.files.map FileRecord.file_id).Nodup)
    (hshuffle : ∀ l, (shuffle l).Perm l) :
    (∀ s : String,
      ((expand env shuffle seed_ids steps group_id).edges.filter
        (fun e => decide (e.source = s))).length ≤ 3) ∧
    (expand env shuffle seed_ids steps group_id).edges.length ≤
      3 * seed_ids.length ∧
    ∀ e1 ∈ (expand env shuffle seed_ids steps group_id).edges,
      ∀ e2 ∈ (expand env shuffle seed_ids steps group_id).edges,
        e1.target = e2.target → e1.source = e2.source := by
  by_cases h : optTruthy (resolvedGroup env group_id) = true
  · simp only [expand, h, if_true]
    set gid := (resolvedGroup env group_id).getD "" with hgid
    set relevant := relevantFiles env gid with hrel
    set seeds := seedsOf relevant seed_ids with hseeds
    set m0 := seeds.foldl
      (fun m s => insertNode m s.file_id (file_to_node s))
      ([] : List (String × GraphNode)) with hm0
    set pool := shuffle (relevant.filter (fun f => !hasKey m0 f.file_id))
      with hpool
    have hedges : (expandLoop seeds m0 [] pool).2 = newEdges seeds pool := by
      rw [expandLoop_snd]
      rfl
    have hrelnd : (relevant.map FileRecord.file_id).Nodup := by
      rw [hrel, relevantFiles]
      exact hnd.sublist ((List.filter_sublist _).map _)
    have hseedsnd : (seeds.map FileRecord.file_id).Nodup :=
      hrelnd.sublist ((seedsOf_sublist relevant seed_ids).map _)
    have hpoolnd : (pool.map FileRecord.file_id).Nodup := by
      rw [hpool]
      exact ((hshuffle _).map _).nodup_iff.mpr
        (hrelnd.sublist ((List.filter_sublist _).map _))
    refine ⟨?_, ?_, ?_⟩
    · intro s
      rw [hedges]
      exact newEdges_filter_le seeds pool s hseedsnd
    · rw [hedges]
      calc (newEdges seeds pool).length
          ≤ 3 * seeds.length := newEdges_length seeds pool
        _ ≤ 3 * seed_ids.length :=
          Nat.mul_le_mul_left 3 (seedsOf_length_le relevant seed_ids hrelnd)
    · intro e1 he1 e2 he2 ht
      rw [hedges] at he1 he2
      have htnd : ((newEdges seeds pool).map GraphEdge.target).Nodup := by
        rw [newEdges_targets, List.map_take]
        exact hpoolnd.sublist (List.take_sublist _ _)
      have := List.inj_on_of_nodup_map htnd he1 he2 ht
      rw [this]
  · simp [expand, h]

/-- Witness for C2: in the five-file world with seed "f1", every source id
carries at most three edges. -/
theorem expand_neighbor_cap_witness :
    ((expand envW id ["f1"] 2 (some "g")).edges.filter
      (fun e => decide (e.source = "f1"))).length ≤ 3 :=
  (expand_neighbor_cap envW id ["f1"] 2 (some "g") (by decide)
    (fun l => List.Perm.refl l)).1 "f1"

/-- Witness for C8: the first edge of the concrete expansion references
nodes of the result, as does the first edge of a concrete sample. -/
theorem edges_reference_nodes_witness :
    (∃ n ∈ (expand envW id ["f1"] 2 (some "g")).nodes,
      n.id = ({ source := "f1", target := "f2", weight := 0.8,
                relation := "related_content" } : GraphEdge).source) ∧
    ∃ n ∈ (expand envW id ["f1"] 2 (some "g")).nodes,
      n.id = ({ source := "f1", target := "f2", weight := 0.8,
                relation := "related_content" } : GraphEdge).target :=
  (edges_reference_nodes envW id ["f1"] 2 (some "g") (fun n l => l.take n)
    (fun _ => true) (fun _ => 0) (fun _ => 0) 0.05).1 _
    (by exact List.Mem.head _)

end Graphex
